import Mathlib

/-!
Verification of the docker volume-driver module (`daemon/module/docker/volumedriver/voldriver.go`)
against its natural-language specification.

The Go source is shallowly embedded: pure string manipulation becomes Lean functions over
`List Char`, the filesystem effects of `Start` become explicit state passing over an `FS`
record, the HTTP verb dispatcher built by `buildMux` becomes a pure function from a verb,
a request body and a Volume Manager oracle to a response plus the list of Volume Manager
calls made.

Modelling conventions:
  - Go `strings.ToLower` is modelled on ASCII letters only (`lowerChar`); the characters on
    which the Unicode and ASCII versions differ are all deleted by the `illegalPath` filter
    of `cleanName`, so the claims below are insensitive to the difference.
  - Machine integers do not occur on any verified path; character codes are `Nat`.
-/

namespace VolDriver

/-- ASCII lowercasing of one character, as `strings.ToLower` acts on ASCII input. -/
def lowerChar (c : Char) : Char :=
  if 65 ≤ c.toNat ∧ c.toNat ≤ 90 then Char.ofNat (c.toNat + 32) else c

/-- The character class of the `separators` regexp `[ &_=+:]` in voldriver.go. -/
def isSep (c : Char) : Bool :=
  c == ' ' || c == '&' || c == '_' || c == '=' || c == '+' || c == ':'

/-- The complement of the `illegalPath` regexp `[^[:alnum:]\~\-\./]` in voldriver.go:
characters that survive the deletion step. `[:alnum:]` in Go regexp is ASCII
alphanumeric, which coincides with `Char.isAlphanum`. -/
def legalChar (c : Char) : Bool :=
  c.isAlphanum || c == '~' || c == '-' || c == '.' || c == '/'

/-- Model of `strings.Trim s " "`: drop leading and trailing spaces. -/
def goTrimSpace (l : List Char) : List Char :=
  (((l.dropWhile (· == ' ')).reverse.dropWhile (· == ' '))).reverse

/-- Model of `separators.ReplaceAllString s "-"`: each separator character becomes a hyphen. -/
def sepToDash (l : List Char) : List Char :=
  l.map (fun c => if isSep c then '-' else c)

/-- Model of `illegalPath.ReplaceAllString s ""`: delete every character outside the legal set. -/
def keepLegal (l : List Char) : List Char :=
  l.filter legalChar

/-- Model of `dashes.ReplaceAllString s "-"` for `dashes = [\-]+`: collapse each run of hyphens
into a single hyphen. -/
def collapseDashes : List Char → List Char
  | [] => []
  | [c] => [c]
  | c :: d :: rest =>
    if c == '-' && d == '-' then collapseDashes (d :: rest)
    else c :: collapseDashes (d :: rest)

/-- The pipeline of `cleanName` on character lists: lowercase, trim spaces, separators to
hyphens, delete illegal characters, collapse hyphen runs. -/
def cleanList (l : List Char) : List Char :=
  collapseDashes (keepLegal (sepToDash (goTrimSpace (l.map lowerChar))))

/-- The function `cleanName` from voldriver.go, the name sanitizer. -/
def cleanName (s : String) : String :=
  ⟨cleanList s.data⟩

/-- Auxiliary predicate: the list has no two adjacent hyphens. Output invariant of
`collapseDashes`. -/
def noDD : List Char → Bool
  | c :: d :: rest => !(c == '-' && d == '-') && noDD (d :: rest)
  | _ => true

example : cleanName "My Module_Name" = "my-module-name" := by decide
example : cleanName "  a  b  " = "a-b" := by decide
example : cleanName "a&&b" = "a-b" := by decide
example : cleanName "A==B" = "a-b" := by decide
example : cleanName "@#$" = "" := by decide

/-! ### Address resolution (`newModule`) -/

/-- Model of `strings.Trim s " "` on strings. -/
def goTrim (s : String) : String :=
  ⟨goTrimSpace s.data⟩

/-- The address derivation at the top of `newModule`: trim the configured address; when
the result is empty derive the default unix socket address, with the `"default-docker"`
special case mapping to the fixed rexray socket path without sanitization. -/
def resolveConfigAddress (rawAddress name : String) : String :=
  let host := goTrim rawAddress
  if host = "" then
    if name = "default-docker" then "unix:///run/docker/plugins/rexray.sock"
    else "unix:///run/docker/plugins/" ++ cleanName name ++ ".sock"
  else host

/-! ### `Start`: address parsing, scheme validation and filesystem effects -/

/-- The errors `Start` can return on the modelled paths. -/
inductive StartErr where
  | invalidAddress
  | invalidProtocol (proto : String)
  | initDrivers (msg : String)
deriving Repr, DecidableEq

/-- Split a character list at the first occurrence of "://". -/
def splitScheme : List Char → Option (List Char × List Char)
  | [] => none
  | ':' :: '/' :: '/' :: rest => some ([], rest)
  | c :: rest => (splitScheme rest).map (fun p => (c :: p.1, p.2))

/-- Modelled from the spec: `gotil.ParseAddress` is an external library function whose
source is not under src/. Per §4.2 of the spec, `resolve` splits the raw address into a
(scheme, endpoint) pair and fails with an invalid-address error when the address cannot
be split. -/
def parseAddress (addr : String) : Except StartErr (String × String) :=
  match splitScheme addr.data with
  | some (p, e) => .ok (⟨p⟩, ⟨e⟩)
  | none => .error .invalidAddress

/-- Model of `regexp.MatchString "(?i)^unix|tcp$" proto` from `Start`. By Go regexp precedence the
pattern is the alternation of `(?i)^unix` and `(?i)tcp$`, and `MatchString` is an
unanchored search, so the match succeeds iff `proto` starts with "unix" or ends with
"tcp", case-insensitively. -/
def protoValid (proto : String) : Bool :=
  (proto.data.map lowerChar).take 4 == "unix".data ||
  (proto.data.map lowerChar).reverse.take 3 == "tcp".data.reverse

example : protoValid "unix" = true := by decide
example : protoValid "TCP" = true := by decide
example : protoValid "ftp" = false := by decide

/-- Model of `filepath.Dir`, restricted to the slash-clean paths that occur here: everything up to
but excluding the final slash; "/" when the final slash is the first character; "." when
the path has no slash. The lexical normalization of `path.Clean` is not modelled; the
paths appearing on the verified paths are already clean. -/
def dirOf (p : String) : String :=
  match p.data.reverse.dropWhile (fun c => !(c == '/')) with
  | [] => "."
  | _ :: [] => "/"
  | _ :: t => ⟨t.reverse⟩

example : dirOf "/run/docker/plugins/rexray.sock" = "/run/docker/plugins" := by decide
example : dirOf "/x" = "/" := by decide
example : dirOf "x" = "." := by decide

/-- The filesystem state `Start` acts on: directories (with creation mode) and regular
files (with content). -/
structure FS where
  dirs : List (String × Nat)
  files : List (String × String)
deriving Repr, DecidableEq

def FS.dirExists (fs : FS) (p : String) : Bool :=
  fs.dirs.any (fun d => d.1 == p)

def FS.dirMode (fs : FS) (p : String) : Option Nat :=
  (fs.dirs.find? (fun d => d.1 == p)).map (fun d => d.2)

def FS.fileContent (fs : FS) (p : String) : Option String :=
  (fs.files.find? (fun f => f.1 == p)).map (fun f => f.2)

/-- Model of `gotil.FileExists` as used on the discovery path. -/
def FS.fileExists (fs : FS) (p : String) : Bool :=
  (fs.files.find? (fun f => f.1 == p)).isSome

/-- Model of `os.MkdirAll`: create the directory with the given mode if absent; no effect when it
already exists. Intermediate ancestor directories are not tracked. -/
def FS.mkdirAll (fs : FS) (p : String) (mode : Nat) : FS :=
  if fs.dirExists p then fs else ⟨(p, mode) :: fs.dirs, fs.files⟩

/-- Model of `os.RemoveAll` applied to a file path: removes the file when present and succeeds with
no effect when the path does not exist. -/
def FS.removeAll (fs : FS) (p : String) : FS :=
  ⟨fs.dirs, fs.files.filter (fun f => !(f.1 == p))⟩

/-- Model of `ioutil.WriteFile`: create the file or truncate an existing one. -/
def FS.writeFile (fs : FS) (p content : String) : FS :=
  ⟨fs.dirs, (p, content) :: fs.files.filter (fun f => !(f.1 == p))⟩

/-- The configuration visible to `mod.Start`: the module name, the resolved address
(`mod.addr`), and the `spec` configuration key. -/
structure ModCfg where
  name : String
  addr : String
  specCfg : String
deriving Repr, DecidableEq

/-- The discovery-file path computed by `Start`: the `spec` config key if set, otherwise
the default derived from the module name with the `"default-docker"` exception. -/
def specPathOf (m : ModCfg) : String :=
  if m.specCfg = "" then
    if m.name = "default-docker" then "/etc/docker/plugins/rexray.spec"
    else "/etc/docker/plugins/" ++ cleanName m.name ++ ".spec"
  else m.specCfg

/-- Result of `Start`: the final filesystem, the filesystem as observed at the moment the
listener goroutine is launched (`none` when `Start` fails before that), and the returned
error, if any. -/
structure StartOut where
  fs : FS
  bindFS : Option FS
  err : Option StartErr
deriving Repr, DecidableEq

/-- The effect skeleton of `mod.Start`, in source order: parse the address; for the exact
proto "unix" create the socket's parent directory; validate the proto against the
`validProtoPatt` regexp; initialize the drivers (`initRes` models the outcome of
`m.r.InitDrivers()`); create `/etc/docker/plugins`; for "unix" create the socket parent
directory again and remove a stale socket file, with the full address as discovery
content, otherwise use the bare endpoint as discovery content; launch the listener
goroutine; write the discovery file only when none exists. -/
def start (m : ModCfg) (initRes : Except String Unit) (fs0 : FS) : StartOut :=
  match parseAddress m.addr with
  | .error e => ⟨fs0, none, some e⟩
  | .ok (proto, endp) =>
    let fs1 := if proto = "unix" then fs0.mkdirAll (dirOf endp) 0o755 else fs0
    if !(protoValid proto) then ⟨fs1, none, some (.invalidProtocol proto)⟩
    else
      match initRes with
      | .error msg => ⟨fs1, none, some (.initDrivers msg)⟩
      | .ok _ =>
        let fs2 := fs1.mkdirAll "/etc/docker/plugins" 0o755
        let step :=
          if proto = "unix" then
            (((fs2.mkdirAll (dirOf endp) 0o755).removeAll endp), m.addr)
          else (fs2, endp)
        let spec := specPathOf m
        let fs4 := if step.1.fileExists spec then step.1 else step.1.writeFile spec step.2
        ⟨fs4, some step.1, none⟩

/-! ### JSON decoding of the plugin request (`encoding/json`, `Decoder.Decode`) -/

/-- JSON values. Numbers carry no payload: no verified path inspects one. -/
inductive JVal where
  | jnull
  | jbool (b : Bool)
  | jnum
  | jstr (s : String)
  | jarr (xs : List JVal)
  | jobj (fields : List (String × JVal))
deriving Repr

def wsChar (c : Char) : Bool :=
  c == ' ' || c == '\t' || c == '\n' || c == '\r'

/-- The two-character JSON escapes. -/
def escCharOf (e : Char) : Option Char :=
  if e == '"' then some '"'
  else if e == '\\' then some '\\'
  else if e == '/' then some '/'
  else if e == 'b' then some (Char.ofNat 8)
  else if e == 'f' then some (Char.ofNat 12)
  else if e == 'n' then some '\n'
  else if e == 'r' then some '\r'
  else if e == 't' then some '\t'
  else none

def hexDigitVal (c : Char) : Option Nat :=
  if c.isDigit then some (c.toNat - 48)
  else if 'a' ≤ c ∧ c ≤ 'f' then some (c.toNat - 87)
  else if 'A' ≤ c ∧ c ≤ 'F' then some (c.toNat - 55)
  else none

/-- Hex digit as a lowercase character. -/
def hexDigitChar (n : Nat) : Char :=
  if n < 10 then Char.ofNat (48 + n) else Char.ofNat (87 + n)

/-- Model of `quoteChar` from encoding/json's scanner, which renders the offending byte
of a syntax error: single quotes around the byte, with `'` and `"` special-cased, other
bytes through `strconv.Quote` (printable bytes stand for themselves, the common control
characters use their two-character escape, the rest a hex escape). Decisive for claim
C6: `quoteChar '"'` contains a literal double quote, and `quoteChar` of a quote,
backslash or control character contains a backslash. -/
def quoteChar (c : Char) : String :=
  if c == '\'' then "'\\''"
  else if c == '"' then "'\"'"
  else if c == '\\' then "'\\\\'"
  else if c == '\n' then "'\\n'"
  else if c == '\r' then "'\\r'"
  else if c == '\t' then "'\\t'"
  else if c.toNat < 32 then
    "'\\x" ++ ⟨[hexDigitChar (c.toNat / 16), hexDigitChar (c.toNat % 16)]⟩ ++ "'"
  else "'" ++ String.singleton c ++ "'"

/-- The decode errors surfaced by `Decoder.Decode`. Syntax errors carry the offending
character and a context phrase, as encoding/json's scanner reports them; type errors
carry the "cannot unmarshal X into Y" tail. -/
inductive DecodeErr where
  | eofErr
  | unexpectedEnd
  | invalidChar (c : Char) (ctx : String)
  | typeMismatch (ctx : String)
deriving Repr, DecidableEq

/-- The strings surfaced by `err.Error()` for decode failures. Syntax errors embed the
offending character through `quoteChar`, so a message can itself contain a double quote
or backslash; the context wording follows encoding/json (where the scanner below stops
one byte earlier than Go's — malformed literals such as "nul" — the reported character
differs, never its quoting). -/
def DecodeErr.message : DecodeErr → String
  | .eofErr => "EOF"
  | .unexpectedEnd => "unexpected end of JSON input"
  | .invalidChar c ctx => "invalid character " ++ quoteChar c ++ " " ++ ctx
  | .typeMismatch ctx => "json: cannot unmarshal " ++ ctx

example : (DecodeErr.invalidChar '"' "after object key:value pair").message =
    "invalid character '\"' after object key:value pair" := rfl

/-- Scan the body of a JSON string literal (the opening quote already consumed), returning
the decoded content and the remainder after the closing quote. Raw control characters are
rejected, escape sequences are decoded; surrogate-pair recombination of `\u` escapes is
not modelled (the resulting characters are never inspected by a claim). -/
def hexQuad (a b c2 d2 : Char) : Char :=
  Char.ofNat ((hexDigitVal a).getD 0 * 4096 + (hexDigitVal b).getD 0 * 256 +
    (hexDigitVal c2).getD 0 * 16 + (hexDigitVal d2).getD 0)

def parseStrBody : List Char → Except DecodeErr (List Char × List Char)
  | [] => .error .unexpectedEnd
  | c :: rest =>
    if c == '"' then .ok ([], rest)
    else if c == '\\' then
      match rest with
      | 'u' :: a :: b :: c2 :: d2 :: rest2 =>
        if (hexDigitVal a).isSome && (hexDigitVal b).isSome &&
            (hexDigitVal c2).isSome && (hexDigitVal d2).isSome then
          (parseStrBody rest2).map (fun p => (hexQuad a b c2 d2 :: p.1, p.2))
        else
          .error (.invalidChar
            (if (hexDigitVal a).isNone then a
             else if (hexDigitVal b).isNone then b
             else if (hexDigitVal c2).isNone then c2 else d2)
            "in \\u hexadecimal character escape")
      | e :: rest2 =>
        if e == 'u' then .error .unexpectedEnd
        else if (escCharOf e).isSome then
          (parseStrBody rest2).map (fun p => ((escCharOf e).getD '"' :: p.1, p.2))
        else .error (.invalidChar e "in string escape code")
      | [] => .error .unexpectedEnd
    else if c.toNat < 32 then .error (.invalidChar c "in string literal")
    else (parseStrBody rest).map (fun p => (c :: p.1, p.2))

/-- Characters that may continue a JSON number token (lexed loosely; no claim inspects a
number). -/
def numChar (c : Char) : Bool :=
  c.isDigit || c == '-' || c == '+' || c == '.' || c == 'e' || c == 'E'

mutual

/-- Parse one JSON value, returning it and the unconsumed remainder. `fuel` bounds the
nesting depth; callers pass more fuel than the input length, which suffices because every
recursive call consumes at least one character first. -/
def parseVal : Nat → List Char → Except DecodeErr (JVal × List Char)
  | 0, _ => .error .unexpectedEnd
  | fuel + 1, l =>
    match l.dropWhile wsChar with
    | [] => .error .unexpectedEnd
    | '"' :: rest => (parseStrBody rest).map (fun p => (JVal.jstr ⟨p.1⟩, p.2))
    | '\x7b' :: rest =>
      match rest.dropWhile wsChar with
      | '\x7d' :: rest2 => .ok (JVal.jobj [], rest2)
      | _ => (parseMembers fuel rest []).map (fun p => (JVal.jobj p.1, p.2))
    | '[' :: rest =>
      match rest.dropWhile wsChar with
      | ']' :: rest2 => .ok (JVal.jarr [], rest2)
      | _ => (parseItems fuel rest []).map (fun p => (JVal.jarr p.1, p.2))
    | 'n' :: 'u' :: 'l' :: 'l' :: rest => .ok (JVal.jnull, rest)
    | 't' :: 'r' :: 'u' :: 'e' :: rest => .ok (JVal.jbool true, rest)
    | 'f' :: 'a' :: 'l' :: 's' :: 'e' :: rest => .ok (JVal.jbool false, rest)
    | c :: rest2 =>
      let num := (c :: rest2).takeWhile numChar
      if num.isEmpty then .error (.invalidChar c "looking for beginning of value")
      else .ok (JVal.jnum, (c :: rest2).dropWhile numChar)

/-- Parse the members of a JSON object after the opening brace (nonempty case). -/
def parseMembers : Nat → List Char → List (String × JVal) →
    Except DecodeErr (List (String × JVal) × List Char)
  | 0, _, _ => .error .unexpectedEnd
  | fuel + 1, l, acc =>
    match l.dropWhile wsChar with
    | '"' :: rest =>
      match parseStrBody rest with
      | .error e => .error e
      | .ok (key, rest2) =>
        match rest2.dropWhile wsChar with
        | ':' :: rest3 =>
          match parseVal fuel rest3 with
          | .error e => .error e
          | .ok (v, rest4) =>
            match rest4.dropWhile wsChar with
            | ',' :: rest5 => parseMembers fuel rest5 (acc ++ [(⟨key⟩, v)])
            | '\x7d' :: rest5 => .ok (acc ++ [(⟨key⟩, v)], rest5)
            | c :: _ => .error (.invalidChar c "after object key:value pair")
            | [] => .error .unexpectedEnd
        | c :: _ => .error (.invalidChar c "after object key")
        | [] => .error .unexpectedEnd
    | c :: _ => .error (.invalidChar c "looking for beginning of object key string")
    | [] => .error .unexpectedEnd

/-- Parse the items of a JSON array after the opening bracket (nonempty case). -/
def parseItems : Nat → List Char → List JVal → Except DecodeErr (List JVal × List Char)
  | 0, _, _ => .error .unexpectedEnd
  | fuel + 1, l, acc =>
    match parseVal fuel l with
    | .error e => .error e
    | .ok (v, rest) =>
      match rest.dropWhile wsChar with
      | ',' :: rest2 => parseItems fuel rest2 (acc ++ [v])
      | ']' :: rest2 => .ok (acc ++ [v], rest2)
      | c :: _ => .error (.invalidChar c "after array element")
      | [] => .error .unexpectedEnd

end

/-- The request envelope `pluginRequest` from voldriver.go. `core.VolumeOpts` is a
string-to-string mapping, modelled as an association list. -/
structure PluginRequest where
  Name : String := ""
  Opts : List (String × String) := []
deriving Repr, DecidableEq

/-- The noun encoding/json uses for a JSON value kind in type-error messages. -/
def jvalKind : JVal → String
  | JVal.jnull => "null"
  | JVal.jbool _ => "bool"
  | JVal.jnum => "number"
  | JVal.jstr _ => "string"
  | JVal.jarr _ => "array"
  | JVal.jobj _ => "object"

/-- Case-insensitive field-name matching, as encoding/json performs for struct fields. -/
def eqCI (a b : String) : Bool :=
  a.data.map lowerChar == b.data.map lowerChar

/-- Unmarshal an object into `map[string]string`: every member value must be a string;
a JSON `null` member leaves the zero value. -/
def optsOf : List (String × JVal) → Except DecodeErr (List (String × String))
  | [] => .ok []
  | (k, JVal.jstr v) :: rest => (optsOf rest).map (fun r => (k, v) :: r)
  | (k, JVal.jnull) :: rest => (optsOf rest).map (fun r => (k, "") :: r)
  | (_, v) :: _ => .error (.typeMismatch (jvalKind v ++ " into Go value of type string"))

/-- Assign one decoded object member to the `pluginRequest` struct: `Name` takes a string,
`Opts` takes a string map, unknown members are ignored, `null` leaves the field
unchanged. -/
def setField (pr : PluginRequest) : String × JVal → Except DecodeErr PluginRequest
  | (k, v) =>
    if eqCI k "Name" then
      match v with
      | JVal.jstr s => .ok { pr with Name := s }
      | JVal.jnull => .ok pr
      | _ => .error (.typeMismatch
          (jvalKind v ++ " into Go struct field pluginRequest.Name of type string"))
    else if eqCI k "Opts" then
      match v with
      | JVal.jobj fields =>
        match optsOf fields with
        | .ok o => .ok { pr with Opts := o }
        | .error e => .error e
      | JVal.jnull => .ok pr
      | _ => .error (.typeMismatch
          (jvalKind v ++ " into Go struct field pluginRequest.Opts of type core.VolumeOpts"))
    else .ok pr

def applyFields : PluginRequest → List (String × JVal) → Except DecodeErr PluginRequest
  | pr, [] => .ok pr
  | pr, f :: rest =>
    match setField pr f with
    | .ok pr2 => applyFields pr2 rest
    | .error e => .error e

/-- Model of `json.NewDecoder(r.Body).Decode(&pr)`: read a single JSON value from the body
(trailing bytes are not an error), failing with `io.EOF` on an empty or whitespace-only
body, with a syntax error carrying the offending character on malformed JSON, and with
an unmarshalling type error when the value does not fit the `pluginRequest` shape. A
top-level `null` decodes as a no-op, leaving the zero-valued struct. -/
def decodePluginRequest (body : String) : Except DecodeErr PluginRequest :=
  let l := body.data.dropWhile wsChar
  if l.isEmpty then .error .eofErr
  else
    match parseVal (body.data.length + 1) l with
    | .error e => .error e
    | .ok (v, _) =>
      match v with
      | JVal.jnull => .ok {}
      | JVal.jobj fields => applyFields {} fields
      | _ => .error (.typeMismatch
          (jvalKind v ++ " into Go value of type volumedriver.pluginRequest"))

example : decodePluginRequest "" = .error .eofErr := rfl
example : decodePluginRequest " \n " = .error .eofErr := rfl
example : decodePluginRequest "not json" =
    .error (.invalidChar 'n' "looking for beginning of value") := rfl
example : decodePluginRequest "\x7b\"Name\":\"vol1\"\x7d" = .ok ⟨"vol1", []⟩ := rfl
example : decodePluginRequest "\x7b\"Name\":\"v\",\"Opts\":\x7b\"a\":\"b\"\x7d\x7d" =
    .ok ⟨"v", [("a", "b")]⟩ := rfl
example : decodePluginRequest "3" =
    .error (.typeMismatch "number into Go value of type volumedriver.pluginRequest") := rfl
example : decodePluginRequest "\x7b\"Name\":\"x\" \"Opts\":\x7b\x7d\x7d" =
    .error (.invalidChar '"' "after object key:value pair") := rfl

/-! ### The verb dispatcher (`buildMux`) -/

inductive Verb where
  | activate | create | remove | path | mount | unmount | get | list
deriving Repr, DecidableEq

/-- Model of `core.VolumeMap`, opaque pass-through data: a string-to-string mapping. -/
abbrev VolumeMap := List (String × String)

/-- The Volume Manager interface consumed by the dispatcher (`m.r.Volume`), as an oracle:
each operation returns either a result or an error message. -/
structure VolumeManager where
  create : String → List (String × String) → Except String Unit
  remove : String → Except String Unit
  path : String → String → Except String String
  mount : String → String → Bool → String → Bool → Except String String
  unmount : String → String → Except String Unit
  get : String → Except String VolumeMap
  list : Unit → Except String (List VolumeMap)

/-- One recorded call to the Volume Manager, with the exact arguments passed. -/
inductive VMCall where
  | create (name : String) (opts : List (String × String))
  | remove (name : String)
  | path (name hint : String)
  | mount (name hint : String) (a : Bool) (b : String) (c : Bool)
  | unmount (name hint : String)
  | get (name : String)
  | list
deriving Repr, DecidableEq

/-- The observable response: status code, Content-Type header, body. A handler that never
calls `WriteHeader` sends status 200. -/
structure Response where
  status : Nat
  contentType : String
  body : String
deriving Repr, DecidableEq

def dockerContentType : String := "application/vnd.docker.plugins.v1.2+json"

def textContentType : String := "text/plain; charset=utf-8"

/-- Go's `http.Error(w, msg, code)`: sets the Content-Type to plain text and writes the
message followed by a newline with the given status code. -/
def httpError (msg : String) (code : Nat) : Response :=
  ⟨code, textContentType, msg ++ "\n"⟩

/-- The error body `fmt.Sprintf("{\"Error\":\"%s\"}", err.Error())` used by every
handler: the message is spliced in verbatim, with no JSON escaping. -/
def errorBody (msg : String) : String :=
  "\x7b\"Error\":\"" ++ msg ++ "\"\x7d"

/-- The full error path of every handler: `http.Error(w, errorBody msg, 500)`. -/
def errorResponse (msg : String) : Response :=
  httpError (errorBody msg) 500

/-- A success response: Content-Type set to the docker plugin marker, status 200. -/
def okResponse (body : String) : Response :=
  ⟨200, dockerContentType, body⟩

/-- JSON string escaping as Go's encoding/json encoder performs it (HTML escaping on, its
default). -/
def escapeJsonChar (c : Char) : List Char :=
  if c == '"' then ['\\', '"']
  else if c == '\\' then ['\\', '\\']
  else if c == '\n' then ['\\', 'n']
  else if c == '\r' then ['\\', 'r']
  else if c == '\t' then ['\\', 't']
  else if c.toNat < 32 || c == '<' || c == '>' || c == '&' then
    ['\\', 'u', '0', '0', hexDigitChar (c.toNat / 16), hexDigitChar (c.toNat % 16)]
  else [c]

def quoteJson (s : String) : String :=
  "\"" ++ ⟨(s.data.map escapeJsonChar).flatten⟩ ++ "\""

/-- Model of `json.Marshal` of a `map[string]string` value, in association-list order (Go sorts
map keys; no claim below inspects the order). -/
def encodeVolumeMap (v : VolumeMap) : String :=
  "\x7b" ++ String.intercalate "," (v.map (fun kv => quoteJson kv.1 ++ ":" ++ quoteJson kv.2))
    ++ "\x7d"

/-- The verb dispatcher built by `buildMux`, as a pure function: given the Volume Manager
oracle, the verb and the raw request body, produce the response and the list of Volume
Manager calls made while handling the request. -/
def handle (vm : VolumeManager) (v : Verb) (body : String) : Response × List VMCall :=
  match v with
  | .activate => (okResponse "\x7b\"Implements\": [\"VolumeDriver\"]\x7d\n", [])
  | .create =>
    match decodePluginRequest body with
    | .error e => (errorResponse e.message, [])
    | .ok pr =>
      match vm.create pr.Name pr.Opts with
      | .error m => (errorResponse m, [.create pr.Name pr.Opts])
      | .ok _ => (okResponse "\x7b\x7d\n", [.create pr.Name pr.Opts])
  | .remove =>
    match decodePluginRequest body with
    | .error e => (errorResponse e.message, [])
    | .ok pr =>
      match vm.remove pr.Name with
      | .error m => (errorResponse m, [.remove pr.Name])
      | .ok _ => (okResponse "\x7b\x7d\n", [.remove pr.Name])
  | .path =>
    match decodePluginRequest body with
    | .error e => (errorResponse e.message, [])
    | .ok pr =>
      match vm.path pr.Name "" with
      | .error m => (errorResponse m, [.path pr.Name ""])
      | .ok mp => (okResponse ("\x7b\"Mountpoint\": \"" ++ mp ++ "\"\x7d\n"), [.path pr.Name ""])
  | .mount =>
    match decodePluginRequest body with
    | .error e => (errorResponse e.message, [])
    | .ok pr =>
      match vm.mount pr.Name "" false "" false with
      | .error m => (errorResponse m, [.mount pr.Name "" false "" false])
      | .ok mp =>
        (okResponse ("\x7b\"Mountpoint\": \"" ++ mp ++ "\"\x7d\n"),
          [.mount pr.Name "" false "" false])
  | .unmount =>
    match decodePluginRequest body with
    | .error e => (errorResponse e.message, [])
    | .ok pr =>
      match vm.unmount pr.Name "" with
      | .error m => (errorResponse m, [.unmount pr.Name ""])
      | .ok _ => (okResponse "\x7b\x7d\n", [.unmount pr.Name ""])
  | .get =>
    match decodePluginRequest body with
    | .error e => (errorResponse e.message, [])
    | .ok pr =>
      match vm.get pr.Name with
      | .error m => (errorResponse m, [.get pr.Name])
      | .ok vol =>
        (okResponse ("\x7b\"Volume\":" ++ encodeVolumeMap vol ++ "\x7d\n"), [.get pr.Name])
  | .list =>
    match decodePluginRequest body with
    | .error e => (errorResponse e.message, [])
    | .ok _ =>
      match vm.list () with
      | .error m => (errorResponse m, [.list])
      | .ok vols =>
        (okResponse ("\x7b\"Volumes\":[" ++
          String.intercalate "," (vols.map encodeVolumeMap) ++ "]\x7d\n"), [.list])

/-- Well-formedness of an error response body per the response-envelope shape: exactly a
JSON object with a single `Error` member whose value is a valid JSON string literal,
followed by the newline `http.Error` appends. -/
def isWellFormedErrorData (l : List Char) : Bool :=
  if l.take 10 = "\x7b\"Error\":\"".data then
    match parseStrBody (l.drop 10) with
    | .ok (_, tail) => tail == ['\x7d', '\n'] || tail == ['\x7d']
    | .error _ => false
  else false

def isWellFormedErrorEnvelope (s : String) : Bool :=
  isWellFormedErrorData s.data

/-- Message strings needing no JSON escaping: no double quote, no backslash, no control
character. -/
def plainChar (c : Char) : Bool :=
  !(c == '"') && !(c == '\\') && decide (32 ≤ c.toNat)

def plainMsg (m : String) : Bool :=
  m.data.all plainChar

/-- A Volume Manager whose error messages all need no JSON escaping. -/
def PlainVM (vm : VolumeManager) : Prop :=
  (∀ n o m, vm.create n o = .error m → plainMsg m = true) ∧
  (∀ n m, vm.remove n = .error m → plainMsg m = true) ∧
  (∀ n h m, vm.path n h = .error m → plainMsg m = true) ∧
  (∀ n h a b c m, vm.mount n h a b c = .error m → plainMsg m = true) ∧
  (∀ n h m, vm.unmount n h = .error m → plainMsg m = true) ∧
  (∀ n m, vm.get n = .error m → plainMsg m = true) ∧
  (∀ m, vm.list () = .error m → plainMsg m = true)

/-- A Volume Manager oracle for concrete evaluation: every operation succeeds. -/
def allOkVM : VolumeManager where
  create := fun _ _ => .ok ()
  remove := fun _ => .ok ()
  path := fun _ _ => .ok "/data/vol1"
  mount := fun _ _ _ _ _ => .ok "/data/vol1"
  unmount := fun _ _ => .ok ()
  get := fun _ => .ok [("Name", "vol1")]
  list := fun _ => .ok [[("Name", "vol1")]]

/-- A Volume Manager whose `create` fails with a message containing a double quote. -/
def quoteErrVM : VolumeManager where
  create := fun _ _ => .error "bad \"name\""
  remove := fun _ => .ok ()
  path := fun _ _ => .ok ""
  mount := fun _ _ _ _ _ => .ok ""
  unmount := fun _ _ => .ok ()
  get := fun _ => .ok []
  list := fun _ => .ok []

/-! ### Lemmas towards idempotence of the sanitizer (claim C8) -/

theorem toNat_ofNat_of_ascii {n : Nat} (h1 : 97 ≤ n) (h2 : n ≤ 122) :
    (Char.ofNat n).toNat = n := by
  have hv : n.isValidChar := Or.inl (by omega)
  rw [Char.ofNat, dif_pos hv]
  simp [Char.ofNatAux, Char.toNat, UInt32.toNat, UInt32.toBitVec, BitVec.toNat_ofNatLt]

theorem lowerChar_fix (c : Char) : lowerChar (lowerChar c) = lowerChar c := by
  by_cases h : 65 ≤ c.toNat ∧ c.toNat ≤ 90
  · have hn : (Char.ofNat (c.toNat + 32)).toNat = c.toNat + 32 :=
      toNat_ofNat_of_ascii (by omega) (by omega)
    simp only [lowerChar, if_pos h, hn]
    rw [if_neg (by omega)]
  · simp only [lowerChar, if_neg h]

theorem mem_goTrimSpace {a : Char} {l : List Char} (h : a ∈ goTrimSpace l) : a ∈ l := by
  simp only [goTrimSpace, List.mem_reverse] at h
  have h2 := (List.dropWhile_sublist (· == ' ')).mem h
  rw [List.mem_reverse] at h2
  exact (List.dropWhile_sublist (· == ' ')).mem h2

theorem mem_collapseDashes {a : Char} : ∀ l, a ∈ collapseDashes l → a ∈ l
  | [] => fun h => by simp [collapseDashes] at h
  | [c] => fun h => by simpa [collapseDashes] using h
  | c :: d :: rest => fun h => by
    by_cases hcd : (c == '-' && d == '-') = true
    · rw [collapseDashes, if_pos hcd] at h
      exact List.mem_cons_of_mem c (mem_collapseDashes (d :: rest) h)
    · rw [collapseDashes, if_neg hcd] at h
      rcases List.mem_cons.mp h with h | h
      · exact h ▸ List.mem_cons_self c (d :: rest)
      · exact List.mem_cons_of_mem c (mem_collapseDashes (d :: rest) h)

theorem collapseDashes_cons_head : ∀ (c : Char) (rest : List Char),
    ∃ t, collapseDashes (c :: rest) = c :: t
  | c, [] => ⟨[], rfl⟩
  | c, d :: rest => by
    by_cases hcd : (c == '-' && d == '-') = true
    · obtain ⟨t, ht⟩ := collapseDashes_cons_head d rest
      have hc : c = '-' := by
        have := (Bool.and_eq_true _ _).mp hcd
        exact beq_iff_eq.mp this.1
      have hd : d = '-' := by
        have := (Bool.and_eq_true _ _).mp hcd
        exact beq_iff_eq.mp this.2
      exact ⟨t, by rw [collapseDashes, if_pos hcd, ht, hc, hd]⟩
    · exact ⟨collapseDashes (d :: rest), by rw [collapseDashes, if_neg hcd]⟩

theorem noDD_collapseDashes : ∀ l, noDD (collapseDashes l) = true
  | [] => rfl
  | [c] => by simp [collapseDashes, noDD]
  | c :: d :: rest => by
    by_cases hcd : (c == '-' && d == '-') = true
    · rw [collapseDashes, if_pos hcd]
      exact noDD_collapseDashes (d :: rest)
    · rw [collapseDashes, if_neg hcd]
      obtain ⟨t, ht⟩ := collapseDashes_cons_head d rest
      rw [ht]
      have ih := noDD_collapseDashes (d :: rest)
      rw [ht] at ih
      simp only [noDD, Bool.and_eq_true]
      refine ⟨?_, ih⟩
      rw [Bool.not_eq_true', Bool.eq_false_iff]
      exact hcd

theorem noDD_tail {c : Char} {l : List Char} (h : noDD (c :: l) = true) : noDD l = true := by
  cases l with
  | nil => rfl
  | cons d rest =>
    rw [noDD, Bool.and_eq_true] at h
    exact h.2

theorem collapseDashes_eq_self : ∀ l, noDD l = true → collapseDashes l = l
  | [] => fun _ => rfl
  | [c] => fun _ => rfl
  | c :: d :: rest => fun h => by
    have hcd : (c == '-' && d == '-') = false := by
      rw [noDD, Bool.and_eq_true, Bool.not_eq_true'] at h
      exact h.1
    rw [collapseDashes, if_neg (by simp [hcd])]
    rw [collapseDashes_eq_self (d :: rest) (noDD_tail h)]

theorem dropWhile_eq_self_of {p : Char → Bool} {l : List Char}
    (h : ∀ a ∈ l, p a = false) : l.dropWhile p = l := by
  cases l with
  | nil => rfl
  | cons c rest =>
    exact List.dropWhile_cons_of_neg (by simp [h c (List.mem_cons_self c rest)])

theorem goTrimSpace_eq_self {l : List Char} (h : ∀ a ∈ l, (a == ' ') = false) :
    goTrimSpace l = l := by
  unfold goTrimSpace
  rw [dropWhile_eq_self_of h]
  rw [dropWhile_eq_self_of (fun a ha => h a (List.mem_reverse.mp ha))]
  exact List.reverse_reverse l

theorem sepToDash_eq_self {l : List Char} (h : ∀ a ∈ l, isSep a = false) :
    sepToDash l = l := by
  unfold sepToDash
  induction l with
  | nil => rfl
  | cons c rest ih =>
    rw [List.map_cons, if_neg (by simp [h c (List.mem_cons_self c rest)])]
    rw [ih (fun a ha => h a (List.mem_cons_of_mem c ha))]

theorem map_lowerChar_eq_self {l : List Char} (h : ∀ a ∈ l, lowerChar a = a) :
    l.map lowerChar = l := by
  induction l with
  | nil => rfl
  | cons c rest ih =>
    rw [List.map_cons, h c (List.mem_cons_self c rest)]
    rw [ih (fun a ha => h a (List.mem_cons_of_mem c ha))]

theorem isSep_eq_false_of_legal {a : Char} (h : legalChar a = true) : isSep a = false := by
  by_contra hne
  rw [Bool.not_eq_false] at hne
  simp only [isSep, Bool.or_eq_true, beq_iff_eq] at hne
  have hcase : a = ' ' ∨ a = '&' ∨ a = '_' ∨ a = '=' ∨ a = '+' ∨ a = ':' := by tauto
  rcases hcase with rfl | rfl | rfl | rfl | rfl | rfl <;> exact absurd h (by decide)

theorem mem_sepToDash {a : Char} {l : List Char} (h : a ∈ sepToDash l) :
    a = '-' ∨ (a ∈ l ∧ isSep a = false) := by
  simp only [sepToDash, List.mem_map] at h
  obtain ⟨b, hb, hba⟩ := h
  by_cases hs : isSep b = true
  · left
    rw [if_pos hs] at hba
    exact hba.symm
  · right
    rw [if_neg hs] at hba
    subst hba
    exact ⟨hb, by simpa using hs⟩

theorem cleanList_chars_lower {l : List Char} :
    ∀ a ∈ cleanList l, lowerChar a = a := by
  intro a ha
  unfold cleanList at ha
  have h1 := mem_collapseDashes _ ha
  have h2 : a ∈ sepToDash (goTrimSpace (l.map lowerChar)) := (List.mem_filter.mp h1).1
  rcases mem_sepToDash h2 with h3 | ⟨h3, _⟩
  · subst h3; decide
  · have h4 := mem_goTrimSpace h3
    obtain ⟨b, _, hb⟩ := List.mem_map.mp h4
    rw [← hb]
    exact lowerChar_fix b

theorem cleanList_chars_legal {l : List Char} :
    ∀ a ∈ cleanList l, legalChar a = true := by
  intro a ha
  unfold cleanList at ha
  exact (List.mem_filter.mp (mem_collapseDashes _ ha)).2

theorem cleanList_idem (l : List Char) : cleanList (cleanList l) = cleanList l := by
  have hlegal := @cleanList_chars_legal l
  have hsep : ∀ a ∈ cleanList l, isSep a = false :=
    fun a ha => isSep_eq_false_of_legal (hlegal a ha)
  have hmap : (cleanList l).map lowerChar = cleanList l :=
    map_lowerChar_eq_self (cleanList_chars_lower)
  have htrim : goTrimSpace (cleanList l) = cleanList l := by
    refine goTrimSpace_eq_self (fun a ha => ?_)
    have := hsep a ha
    by_contra hne
    rw [Bool.not_eq_false, beq_iff_eq] at hne
    subst hne
    simp [isSep] at this
  have hsd : sepToDash (cleanList l) = cleanList l := sepToDash_eq_self hsep
  have hkl : keepLegal (cleanList l) = cleanList l := List.filter_eq_self.mpr hlegal
  have hcd : collapseDashes (cleanList l) = cleanList l :=
    collapseDashes_eq_self _ (noDD_collapseDashes _)
  show collapseDashes (keepLegal (sepToDash (goTrimSpace ((cleanList l).map lowerChar)))) =
    cleanList l
  rw [hmap, htrim, hsd, hkl, hcd]

/-! ### Lemmas about the filesystem model -/

theorem FS.fileContent_mkdirAll (fs : FS) (p : String) (mo : Nat) (q : String) :
    (fs.mkdirAll p mo).fileContent q = fs.fileContent q := by
  unfold FS.mkdirAll
  split <;> rfl

theorem FS.fileExists_mkdirAll (fs : FS) (p : String) (mo : Nat) (q : String) :
    (fs.mkdirAll p mo).fileExists q = fs.fileExists q := by
  unfold FS.mkdirAll
  split <;> rfl

theorem FS.fileExists_eq_isSome (fs : FS) (p : String) :
    fs.fileExists p = (fs.fileContent p).isSome := by
  simp [FS.fileExists, FS.fileContent]

theorem FS.fileContent_removeAll_self (fs : FS) (p : String) :
    (fs.removeAll p).fileContent p = none := by
  unfold FS.removeAll FS.fileContent
  rw [List.find?_eq_none.mpr]
  · rfl
  · intro x hx
    have := (List.mem_filter.mp hx).2
    simp only [Bool.not_eq_true'] at this
    simp [this]

theorem find?_filter_ne (l : List (String × String)) (p q : String) (h : q ≠ p) :
    (l.filter (fun f => !(f.1 == p))).find? (fun f => f.1 == q) =
      l.find? (fun f => f.1 == q) := by
  induction l with
  | nil => rfl
  | cons f rest ih =>
    by_cases hp : f.1 = p
    · have hq : (f.1 == q) = false := by
        simp only [beq_eq_false_iff_ne, ne_eq, hp]
        exact fun hh => h hh.symm
      rw [List.filter_cons_of_neg (by simp [hp]), List.find?_cons_of_neg _ (by simp [hq])]
      exact ih
    · rw [List.filter_cons_of_pos (by simp [hp])]
      by_cases hq : f.1 = q
      · rw [List.find?_cons_of_pos _ (by simp [hq]), List.find?_cons_of_pos _ (by simp [hq])]
      · rw [List.find?_cons_of_neg _ (by simp [hq]), List.find?_cons_of_neg _ (by simp [hq])]
        exact ih

theorem FS.fileContent_removeAll_of_ne (fs : FS) (p q : String) (h : q ≠ p) :
    (fs.removeAll p).fileContent q = fs.fileContent q := by
  unfold FS.removeAll FS.fileContent
  rw [find?_filter_ne fs.files p q h]

theorem FS.fileContent_writeFile_self (fs : FS) (p c : String) :
    (fs.writeFile p c).fileContent p = some c := by
  simp [FS.writeFile, FS.fileContent, List.find?]

theorem FS.dirExists_mkdirAll_self (fs : FS) (p : String) (mo : Nat) :
    (fs.mkdirAll p mo).dirExists p = true := by
  unfold FS.mkdirAll
  split
  · assumption
  · simp [FS.dirExists]

theorem FS.dirExists_mkdirAll_of (fs : FS) (p q : String) (mo : Nat)
    (h : fs.dirExists q = true) : (fs.mkdirAll p mo).dirExists q = true := by
  unfold FS.mkdirAll
  split
  · exact h
  · simp [FS.dirExists] at h ⊢
    tauto

theorem FS.dirMode_mkdirAll_absent (fs : FS) (p : String) (mo : Nat)
    (h : fs.dirExists p = false) : (fs.mkdirAll p mo).dirMode p = some mo := by
  unfold FS.mkdirAll
  rw [if_neg (by simp [h])]
  simp [FS.dirMode, List.find?]

theorem FS.dirMode_mkdirAll_of_exists (fs : FS) (p q : String) (mo : Nat)
    (h : fs.dirExists q = true) : (fs.mkdirAll p mo).dirMode q = fs.dirMode q := by
  unfold FS.mkdirAll
  split
  · rfl
  · next hne =>
    by_cases hpq : p = q
    · subst hpq
      exact absurd h (by simpa using hne)
    · have : (p == q) = false := by simp [hpq]
      simp [FS.dirMode, List.find?, this]

theorem FS.dirMode_removeAll (fs : FS) (p q : String) :
    (fs.removeAll p).dirMode q = fs.dirMode q := rfl

theorem FS.dirExists_removeAll (fs : FS) (p q : String) :
    (fs.removeAll p).dirExists q = fs.dirExists q := rfl

/-! ### Lemmas about the error envelope -/

theorem parseStrBody_append_plain (l tail : List Char)
    (h : ∀ c ∈ l, plainChar c = true) :
    parseStrBody (l ++ '"' :: tail) = .ok (l, tail) := by
  induction l with
  | nil =>
    rw [List.nil_append, parseStrBody.eq_def]
    simp
  | cons c rest ih =>
    have hc := h c (List.mem_cons_self c rest)
    simp only [plainChar, Bool.and_eq_true, Bool.not_eq_true', decide_eq_true_eq] at hc
    obtain ⟨⟨h1, h2⟩, h3⟩ := hc
    rw [List.cons_append, parseStrBody.eq_def]
    try dsimp only
    rw [if_neg (by simp [h1]), if_neg (by simp [h2]), if_neg (by omega)]
    rw [ih (fun a ha => h a (List.mem_cons_of_mem c ha))]
    rfl

theorem wellFormed_errorResponse_of_plain (m : String) (h : plainMsg m = true) :
    isWellFormedErrorEnvelope (errorResponse m).body = true := by
  have hdata : (errorResponse m).body.data =
      '\x7b' :: '"' :: 'E' :: 'r' :: 'r' :: 'o' :: 'r' :: '"' :: ':' :: '"' ::
        (m.data ++ '"' :: ('\x7d' :: '\n' :: [])) := by
    show (errorBody m ++ "\n").data = _
    simp only [errorBody, String.data_append]
    simp
  have hp := parseStrBody_append_plain m.data ('\x7d' :: '\n' :: [])
    (fun c hc => List.all_eq_true.mp h c hc)
  unfold isWellFormedErrorEnvelope
  rw [hdata]
  unfold isWellFormedErrorData
  rw [if_pos (by rfl)]
  have hdrop : ('\x7b' :: '"' :: 'E' :: 'r' :: 'r' :: 'o' :: 'r' :: '"' :: ':' :: '"' ::
      (m.data ++ '"' :: ('\x7d' :: '\n' :: []))).drop 10 =
      m.data ++ '"' :: ('\x7d' :: '\n' :: []) := rfl
  rw [hdrop, hp]
  simp

/-! ## The claims -/

/-- Claim C1 (code bug): `Start` does not reject the unsupported scheme "unixfoo".
The validation pattern `(?i)^unix|tcp$` parses as the alternation of `^unix` and `tcp$`,
and `MatchString` is unanchored, so every scheme starting with "unix" or ending in "tcp"
passes; with drivers initialization set up to fail, `Start` on a "unixfoo" address
returns the drivers-initialization error, proving that scheme validation accepted the
scheme and the Volume Manager initialization was reached, where the claim requires an
unsupported-scheme failure before it. -/
theorem claim_C1_unsupported_scheme_accepted :
    protoValid "unixfoo" = true ∧ protoValid "footcp" = true ∧
    (start ⟨"m", "unixfoo:///run/docker/plugins/m.sock", ""⟩ (.error "initfail")
        ⟨[], []⟩).err = some (.initDrivers "initfail") := by
  refine ⟨by decide, by decide, ?_⟩
  rfl

/-- Claim C5: for every verb except activate, a request body that fails JSON decoding
yields the 500 error response carrying an `Error` field built from the decode error, and
the handler makes zero Volume Manager calls. -/
theorem claim_C5_decode_failure_no_vm_calls (vm : VolumeManager) (v : Verb) (body : String)
    (hv : v ≠ Verb.activate) (e : DecodeErr)
    (hd : decodePluginRequest body = .error e) :
    (handle vm v body).1.status = 500 ∧
    (handle vm v body).1.body = errorBody e.message ++ "\n" ∧
    (handle vm v body).2 = [] := by
  cases v
  case activate => exact absurd rfl hv
  all_goals
    simp [handle, hd, errorResponse, httpError, errorBody]

/-- Witness for C5 at the create verb with an empty body. -/
theorem claim_C5_witness :
    (handle allOkVM Verb.create "").1.status = 500 ∧
    (handle allOkVM Verb.create "").1.body = errorBody DecodeErr.eofErr.message ++ "\n" ∧
    (handle allOkVM Verb.create "").2 = [] :=
  claim_C5_decode_failure_no_vm_calls allOkVM Verb.create "" (by decide) DecodeErr.eofErr rfl

/-- Claim C7: with an empty configured address, the resolved address is the default unix
socket path built from the sanitized name, except the distinguished name
"default-docker", which maps to the fixed rexray socket path without sanitization. -/
theorem claim_C7_default_address (name : String) :
    resolveConfigAddress "" name =
      if name = "default-docker" then "unix:///run/docker/plugins/rexray.sock"
      else "unix:///run/docker/plugins/" ++ cleanName name ++ ".sock" := rfl

/-- Claim C8: the name sanitizer is idempotent; it is total by construction, being a
Lean function defined for every input string. -/
theorem claim_C8_sanitizer_idempotent (s : String) :
    cleanName (cleanName s) = cleanName s := by
  show (⟨cleanList (cleanName s).data⟩ : String) = cleanName s
  have hd : (cleanName s).data = cleanList s.data := rfl
  rw [hd, cleanList_idem]
  rfl

/-- Claim C10: every verb except activate decodes the request body unconditionally, so an
empty (zero-byte) body produces the 500 decode-error response (the decoder's EOF error)
and no Volume Manager calls, rather than a success payload. -/
theorem claim_C10_empty_body_errors (vm : VolumeManager) (v : Verb)
    (hv : v ≠ Verb.activate) :
    (handle vm v "").1.status = 500 ∧
    (handle vm v "").1.body = "\x7b\"Error\":\"EOF\"\x7d\n" ∧
    (handle vm v "").2 = [] := by
  have hd : decodePluginRequest "" = .error .eofErr := rfl
  cases v
  case activate => exact absurd rfl hv
  all_goals
    simp [handle, hd, errorResponse, httpError, errorBody, DecodeErr.message]

/-- Witness for C10 at the list verb. -/
theorem claim_C10_witness :
    (handle allOkVM Verb.list "").1.status = 500 ∧
    (handle allOkVM Verb.list "").1.body = "\x7b\"Error\":\"EOF\"\x7d\n" ∧
    (handle allOkVM Verb.list "").2 = [] :=
  claim_C10_empty_body_errors allOkVM Verb.list (by decide)

/-- Claim C2 counterexample: the decode-failure response of the create verb does not
carry the docker content-type marker; `http.Error` sets text/plain instead. -/
theorem claim_C2_counterexample :
    (handle allOkVM Verb.create "").1.contentType ≠ dockerContentType := by decide

/-- Claim C2 amended: success responses (status 200, activate included) carry the docker
content-type marker `application/vnd.docker.plugins.v1.2+json`; the 500 error responses,
written through Go's `http.Error`, carry `text/plain; charset=utf-8` instead. -/
theorem claim_C2_amended (vm : VolumeManager) (v : Verb) (body : String) :
    (handle vm v body).1.contentType =
      if (handle vm v body).1.status = 200 then dockerContentType else textContentType := by
  cases v
  case activate => simp [handle, okResponse]
  all_goals
    rcases hd : decodePluginRequest body with e | pr <;>
      simp only [handle, hd] <;>
      (try split) <;>
      simp_all [errorResponse, httpError, okResponse]

/-- Claim C6 counterexample, on both failure kinds the claim covers. A Volume Manager
error message containing a double quote is spliced into the error body unescaped, so the
response body is not a well-formed `Error` envelope; and a decode failure whose syntax
error quotes a double-quote byte (body with a missing comma between members, Go message
starting with the words invalid character, then a quoted quote) produces a malformed
envelope the same way. -/
theorem claim_C6_counterexample :
    ((handle quoteErrVM Verb.create "\x7b\x7d").1.status = 500 ∧
      isWellFormedErrorEnvelope (handle quoteErrVM Verb.create "\x7b\x7d").1.body = false) ∧
    ((handle allOkVM Verb.create "\x7b\"Name\":\"x\" \"Opts\":\x7b\x7d\x7d").1.status = 500 ∧
      isWellFormedErrorEnvelope
        (handle allOkVM Verb.create "\x7b\"Name\":\"x\" \"Opts\":\x7b\x7d\x7d").1.body = false) :=
  ⟨⟨rfl, rfl⟩, ⟨rfl, rfl⟩⟩

/-- Claim C6 amended: every decode failure and every Volume Manager failure produces a
response with status 500, and when the spliced error message contains no double quote,
backslash or control character the body is a well-formed `Error` envelope. The
plainness condition covers both failure kinds: Volume Manager messages through the
`PlainVM` hypothesis, and decode-error messages through `hdec` — Go's syntax errors can
themselves quote the offending byte, including a double quote, so decode failures are
not unconditionally well-formed (see the counterexample). -/
theorem claim_C6_amended (vm : VolumeManager) (v : Verb) (body : String)
    (hplain : PlainVM vm)
    (hdec : ∀ e, decodePluginRequest body = .error e → plainMsg e.message = true)
    (herr : (handle vm v body).1.status ≠ 200) :
    (handle vm v body).1.status = 500 ∧
    isWellFormedErrorEnvelope (handle vm v body).1.body = true := by
  obtain ⟨hc, hr, hpa, hm, hu, hg, hl⟩ := hplain
  cases v
  case activate => exact absurd (by simp [handle, okResponse]) herr
  case create =>
    rcases hd : decodePluginRequest body with e | pr
    · refine ⟨by simp [handle, hd, errorResponse, httpError], ?_⟩
      simp only [handle, hd]
      exact wellFormed_errorResponse_of_plain _ (hdec e hd)
    · rcases hvc : vm.create pr.Name pr.Opts with m | u
      · refine ⟨by simp [handle, hd, hvc, errorResponse, httpError], ?_⟩
        simp only [handle, hd, hvc]
        exact wellFormed_errorResponse_of_plain _ (hc _ _ _ hvc)
      · exact absurd (by simp [handle, hd, hvc, okResponse]) herr
  case remove =>
    rcases hd : decodePluginRequest body with e | pr
    · refine ⟨by simp [handle, hd, errorResponse, httpError], ?_⟩
      simp only [handle, hd]
      exact wellFormed_errorResponse_of_plain _ (hdec e hd)
    · rcases hvc : vm.remove pr.Name with m | u
      · refine ⟨by simp [handle, hd, hvc, errorResponse, httpError], ?_⟩
        simp only [handle, hd, hvc]
        exact wellFormed_errorResponse_of_plain _ (hr _ _ hvc)
      · exact absurd (by simp [handle, hd, hvc, okResponse]) herr
  case path =>
    rcases hd : decodePluginRequest body with e | pr
    · refine ⟨by simp [handle, hd, errorResponse, httpError], ?_⟩
      simp only [handle, hd]
      exact wellFormed_errorResponse_of_plain _ (hdec e hd)
    · rcases hvc : vm.path pr.Name "" with m | mp
      · refine ⟨by simp [handle, hd, hvc, errorResponse, httpError], ?_⟩
        simp only [handle, hd, hvc]
        exact wellFormed_errorResponse_of_plain _ (hpa _ _ _ hvc)
      · exact absurd (by simp [handle, hd, hvc, okResponse]) herr
  case mount =>
    rcases hd : decodePluginRequest body with e | pr
    · refine ⟨by simp [handle, hd, errorResponse, httpError], ?_⟩
      simp only [handle, hd]
      exact wellFormed_errorResponse_of_plain _ (hdec e hd)
    · rcases hvc : vm.mount pr.Name "" false "" false with m | mp
      · refine ⟨by simp [handle, hd, hvc, errorResponse, httpError], ?_⟩
        simp only [handle, hd, hvc]
        exact wellFormed_errorResponse_of_plain _ (hm _ _ _ _ _ _ hvc)
      · exact absurd (by simp [handle, hd, hvc, okResponse]) herr
  case unmount =>
    rcases hd : decodePluginRequest body with e | pr
    · refine ⟨by simp [handle, hd, errorResponse, httpError], ?_⟩
      simp only [handle, hd]
      exact wellFormed_errorResponse_of_plain _ (hdec e hd)
    · rcases hvc : vm.unmount pr.Name "" with m | u
      · refine ⟨by simp [handle, hd, hvc, errorResponse, httpError], ?_⟩
        simp only [handle, hd, hvc]
        exact wellFormed_errorResponse_of_plain _ (hu _ _ _ hvc)
      · exact absurd (by simp [handle, hd, hvc, okResponse]) herr
  case get =>
    rcases hd : decodePluginRequest body with e | pr
    · refine ⟨by simp [handle, hd, errorResponse, httpError], ?_⟩
      simp only [handle, hd]
      exact wellFormed_errorResponse_of_plain _ (hdec e hd)
    · rcases hvc : vm.get pr.Name with m | vol
      · refine ⟨by simp [handle, hd, hvc, errorResponse, httpError], ?_⟩
        simp only [handle, hd, hvc]
        exact wellFormed_errorResponse_of_plain _ (hg _ _ hvc)
      · exact absurd (by simp [handle, hd, hvc, okResponse]) herr
  case list =>
    rcases hd : decodePluginRequest body with e | pr
    · refine ⟨by simp [handle, hd, errorResponse, httpError], ?_⟩
      simp only [handle, hd]
      exact wellFormed_errorResponse_of_plain _ (hdec e hd)
    · rcases hvc : vm.list () with m | vols
      · refine ⟨by simp [handle, hd, hvc, errorResponse, httpError], ?_⟩
        simp only [handle, hd, hvc]
        exact wellFormed_errorResponse_of_plain _ (hl _ hvc)
      · exact absurd (by simp [handle, hd, hvc, okResponse]) herr

theorem FS.fileExists_removeAll_of_false (fs : FS) (p q : String)
    (h : fs.fileExists q = false) : (fs.removeAll p).fileExists q = false := by
  by_cases hpq : q = p
  · subst hpq
    rw [FS.fileExists_eq_isSome, FS.fileContent_removeAll_self]
    rfl
  · rw [FS.fileExists_eq_isSome, FS.fileContent_removeAll_of_ne fs p q hpq,
      ← FS.fileExists_eq_isSome]
    exact h

/-- Evaluation of `start` when address parsing fails. -/
theorem start_parse_error (m : ModCfg) (i : Except String Unit) (fs : FS) (e : StartErr)
    (hp : parseAddress m.addr = .error e) :
    start m i fs = ⟨fs, none, some e⟩ := by
  unfold start
  rw [hp]

/-- Evaluation of `start` when the scheme fails the validation pattern. -/
theorem start_bad_proto (m : ModCfg) (i : Except String Unit) (fs : FS)
    (proto endp : String) (hp : parseAddress m.addr = .ok (proto, endp))
    (hv : protoValid proto = false) :
    start m i fs =
      ⟨if proto = "unix" then fs.mkdirAll (dirOf endp) 0o755 else fs, none,
        some (.invalidProtocol proto)⟩ := by
  unfold start
  rw [hp]
  try dsimp only
  rw [hv]
  simp

/-- Evaluation of `start` when drivers initialization fails. -/
theorem start_init_error (m : ModCfg) (fs : FS) (msg : String) (proto endp : String)
    (hp : parseAddress m.addr = .ok (proto, endp)) (hv : protoValid proto = true) :
    start m (.error msg) fs =
      ⟨if proto = "unix" then fs.mkdirAll (dirOf endp) 0o755 else fs, none,
        some (.initDrivers msg)⟩ := by
  unfold start
  rw [hp]
  try dsimp only
  rw [hv]
  simp

/-- Evaluation of `start` on the successful unix path. -/
theorem start_unix_ok (m : ModCfg) (fs : FS) (endp : String)
    (hp : parseAddress m.addr = .ok ("unix", endp)) :
    start m (.ok ()) fs =
      ⟨if ((((fs.mkdirAll (dirOf endp) 0o755).mkdirAll "/etc/docker/plugins"
            0o755).mkdirAll (dirOf endp) 0o755).removeAll endp).fileExists (specPathOf m)
          then (((fs.mkdirAll (dirOf endp) 0o755).mkdirAll "/etc/docker/plugins"
            0o755).mkdirAll (dirOf endp) 0o755).removeAll endp
          else ((((fs.mkdirAll (dirOf endp) 0o755).mkdirAll "/etc/docker/plugins"
            0o755).mkdirAll (dirOf endp) 0o755).removeAll endp).writeFile (specPathOf m)
            m.addr,
        some ((((fs.mkdirAll (dirOf endp) 0o755).mkdirAll "/etc/docker/plugins"
            0o755).mkdirAll (dirOf endp) 0o755).removeAll endp), none⟩ := by
  unfold start
  rw [hp]
  rfl

/-- Evaluation of `start` on the successful non-unix (tcp) path. -/
theorem start_other_ok (m : ModCfg) (fs : FS) (proto endp : String)
    (hp : parseAddress m.addr = .ok (proto, endp)) (hv : protoValid proto = true)
    (hu : proto ≠ "unix") :
    start m (.ok ()) fs =
      ⟨if (fs.mkdirAll "/etc/docker/plugins" 0o755).fileExists (specPathOf m)
          then fs.mkdirAll "/etc/docker/plugins" 0o755
          else (fs.mkdirAll "/etc/docker/plugins" 0o755).writeFile (specPathOf m) endp,
        some (fs.mkdirAll "/etc/docker/plugins" 0o755), none⟩ := by
  unfold start
  rw [hp]
  try dsimp only
  rw [hv]
  simp [hu]

/-- Claim C3 counterexample: with the tcp address `tcp://127.0.0.1:8080`, the discovery
file written on first start holds the bare endpoint `127.0.0.1:8080`, not the literal
resolved address with its scheme. -/
theorem claim_C3_counterexample :
    (start ⟨"n", "tcp://127.0.0.1:8080", ""⟩ (.ok ()) ⟨[], []⟩).fs.fileContent
        "/etc/docker/plugins/n.spec" = some "127.0.0.1:8080" ∧
    (start ⟨"n", "tcp://127.0.0.1:8080", ""⟩ (.ok ()) ⟨[], []⟩).fs.fileContent
        "/etc/docker/plugins/n.spec" ≠ some "tcp://127.0.0.1:8080" :=
  ⟨rfl, by decide⟩

/-- Claim C3 amended: on first start (no discovery file present, scheme accepted, drivers
init succeeding) the discovery file content is the full literal resolved address for the
exact scheme "unix", but only the bare endpoint, scheme stripped, for any other accepted
scheme such as tcp. -/
theorem claim_C3_amended (m : ModCfg) (fs : FS) (proto endp : String)
    (hp : parseAddress m.addr = .ok (proto, endp))
    (hv : protoValid proto = true)
    (hnf : fs.fileExists (specPathOf m) = false) :
    (start m (.ok ()) fs).fs.fileContent (specPathOf m) =
      some (if proto = "unix" then m.addr else endp) := by
  by_cases hu : proto = "unix"
  · subst hu
    rw [start_unix_ok m fs endp hp]
    have hex : ((((fs.mkdirAll (dirOf endp) 0o755).mkdirAll "/etc/docker/plugins"
        0o755).mkdirAll (dirOf endp) 0o755).removeAll endp).fileExists (specPathOf m)
        = false := by
      apply FS.fileExists_removeAll_of_false
      rw [FS.fileExists_mkdirAll, FS.fileExists_mkdirAll, FS.fileExists_mkdirAll]
      exact hnf
    try dsimp only
    rw [if_neg (by rw [hex]; exact Bool.false_ne_true), if_pos rfl]
    exact FS.fileContent_writeFile_self _ _ _
  · rw [start_other_ok m fs proto endp hp hv hu]
    have hex : (fs.mkdirAll "/etc/docker/plugins" 0o755).fileExists (specPathOf m)
        = false := by
      rw [FS.fileExists_mkdirAll]
      exact hnf
    try dsimp only
    rw [if_neg (by rw [hex]; exact Bool.false_ne_true), if_neg hu]
    exact FS.fileContent_writeFile_self _ _ _

/-- Witness for the amended C3 at a concrete tcp address over the empty filesystem. -/
theorem claim_C3_amended_witness :
    (start ⟨"n", "tcp://127.0.0.1:8080", ""⟩ (.ok ()) ⟨[], []⟩).fs.fileContent
        (specPathOf ⟨"n", "tcp://127.0.0.1:8080", ""⟩) =
      some (if "tcp" = "unix" then "tcp://127.0.0.1:8080" else "127.0.0.1:8080") :=
  claim_C3_amended ⟨"n", "tcp://127.0.0.1:8080", ""⟩ ⟨[], []⟩ "tcp" "127.0.0.1:8080"
    rfl rfl rfl

/-- Claim C4 counterexample: when the configured unix socket path coincides with the
discovery path, a second start with a different address does change the pre-existing
discovery file: the stale-socket removal deletes it and publication rewrites it. -/
theorem claim_C4_counterexample :
    (start ⟨"n", "unix:///etc/docker/plugins/n.spec", ""⟩ (.ok ())
        ⟨[], [("/etc/docker/plugins/n.spec", "unix:///old.sock")]⟩).fs.fileContent
      "/etc/docker/plugins/n.spec" ≠ some "unix:///old.sock" := by decide

/-- Claim C4 amended: for every pre-existing discovery file, running Start again with any
address whose unix socket path does not coincide with the discovery path leaves the
file content unchanged (when the two paths coincide, the stale-socket removal deletes
the file and publication rewrites it with the new address). -/
theorem claim_C4_amended (m : ModCfg) (initRes : Except String Unit) (fs : FS) (v : String)
    (hold : fs.fileContent (specPathOf m) = some v)
    (hne : ∀ proto endp, parseAddress m.addr = .ok (proto, endp) → proto = "unix" →
      endp ≠ specPathOf m) :
    (start m initRes fs).fs.fileContent (specPathOf m) = some v := by
  rcases hp : parseAddress m.addr with e | pe
  · rw [start_parse_error m initRes fs e hp]
    exact hold
  · obtain ⟨proto, endp⟩ := pe
    by_cases hpv : protoValid proto = true
    · rcases initRes with msg | u
      · rw [start_init_error m fs msg proto endp hp hpv]
        try dsimp only
        split <;> simp [FS.fileContent_mkdirAll, hold]
      · cases u
        by_cases hu : proto = "unix"
        · subst hu
          rw [start_unix_ok m fs endp hp]
          have hc3 : ((((fs.mkdirAll (dirOf endp) 0o755).mkdirAll "/etc/docker/plugins"
              0o755).mkdirAll (dirOf endp) 0o755).removeAll endp).fileContent
              (specPathOf m) = some v := by
            rw [FS.fileContent_removeAll_of_ne _ _ _
              (fun hh => hne "unix" endp hp rfl hh.symm)]
            rw [FS.fileContent_mkdirAll, FS.fileContent_mkdirAll, FS.fileContent_mkdirAll]
            exact hold
          try dsimp only
          rw [if_pos (by rw [FS.fileExists_eq_isSome, hc3]; rfl)]
          exact hc3
        · rw [start_other_ok m fs proto endp hp hpv hu]
          have hc2 : (fs.mkdirAll "/etc/docker/plugins" 0o755).fileContent
              (specPathOf m) = some v := by
            rw [FS.fileContent_mkdirAll]
            exact hold
          try dsimp only
          rw [if_pos (by rw [FS.fileExists_eq_isSome, hc2]; rfl)]
          exact hc2
    · rw [Bool.not_eq_true] at hpv
      rw [start_bad_proto m initRes fs proto endp hp hpv]
      try dsimp only
      split <;> simp [FS.fileContent_mkdirAll, hold]

/-- Witness for the amended C4: a second start over a distinct unix socket path leaves
the pre-existing discovery file untouched. -/
theorem claim_C4_amended_witness :
    (start ⟨"n", "unix:///run/docker/plugins/n.sock", ""⟩ (.ok ())
        ⟨[], [("/etc/docker/plugins/n.spec", "unix:///old.sock")]⟩).fs.fileContent
      (specPathOf ⟨"n", "unix:///run/docker/plugins/n.sock", ""⟩) =
      some "unix:///old.sock" :=
  claim_C4_amended ⟨"n", "unix:///run/docker/plugins/n.sock", ""⟩ (.ok ())
    ⟨[], [("/etc/docker/plugins/n.spec", "unix:///old.sock")]⟩ "unix:///old.sock" rfl
    (by intro proto endp hp hu
        injection hp with hp1
        injection hp1 with hp2 hp3
        rw [← hp3]
        decide)

/-- Claim C9: for an address with exact scheme "unix" and successful drivers init, Start
succeeds, and in the filesystem observed at the moment the listener goroutine is
launched the socket parent directory exists (with mode 0755 when it was absent
initially) and no file remains at the socket path. The theorem holds for every initial
filesystem — with or without a pre-existing file at the socket path — so the absence of
a stale socket file does not fail the start sequence. -/
theorem claim_C9_unix_prebind (m : ModCfg) (fs : FS) (endp : String)
    (hp : parseAddress m.addr = .ok ("unix", endp)) :
    (start m (.ok ()) fs).err = none ∧
    ∃ bfs, (start m (.ok ()) fs).bindFS = some bfs ∧
      bfs.fileContent endp = none ∧
      bfs.dirExists (dirOf endp) = true ∧
      (fs.dirExists (dirOf endp) = false → bfs.dirMode (dirOf endp) = some 0o755) := by
  rw [start_unix_ok m fs endp hp]
  refine ⟨rfl, _, rfl, ?_, ?_, ?_⟩
  · exact FS.fileContent_removeAll_self _ _
  · rw [FS.dirExists_removeAll]
    apply FS.dirExists_mkdirAll_of
    apply FS.dirExists_mkdirAll_of
    exact FS.dirExists_mkdirAll_self _ _ _
  · intro habs
    have h1 : (fs.mkdirAll (dirOf endp) 0o755).dirMode (dirOf endp) = some 0o755 :=
      FS.dirMode_mkdirAll_absent _ _ _ habs
    have hx1 : (fs.mkdirAll (dirOf endp) 0o755).dirExists (dirOf endp) = true :=
      FS.dirExists_mkdirAll_self _ _ _
    have hx2 : ((fs.mkdirAll (dirOf endp) 0o755).mkdirAll "/etc/docker/plugins"
        0o755).dirExists (dirOf endp) = true :=
      FS.dirExists_mkdirAll_of _ _ _ _ hx1
    rw [FS.dirMode_removeAll]
    rw [FS.dirMode_mkdirAll_of_exists _ _ _ _ hx2]
    rw [FS.dirMode_mkdirAll_of_exists _ _ _ _ hx1]
    exact h1

/-- Witness for C9 at a concrete unix address over the empty filesystem. -/
theorem claim_C9_witness :
    (start ⟨"n", "unix:///run/docker/plugins/n.sock", ""⟩ (.ok ()) ⟨[], []⟩).err = none ∧
    ∃ bfs, (start ⟨"n", "unix:///run/docker/plugins/n.sock", ""⟩ (.ok ())
        ⟨[], []⟩).bindFS = some bfs ∧
      bfs.fileContent "/run/docker/plugins/n.sock" = none ∧
      bfs.dirExists (dirOf "/run/docker/plugins/n.sock") = true ∧
      ((⟨[], []⟩ : FS).dirExists (dirOf "/run/docker/plugins/n.sock") = false →
        bfs.dirMode (dirOf "/run/docker/plugins/n.sock") = some 0o755) :=
  claim_C9_unix_prebind ⟨"n", "unix:///run/docker/plugins/n.sock", ""⟩ ⟨[], []⟩
    "/run/docker/plugins/n.sock" rfl

/-- Witness for the amended C6 at the create verb with an empty body and an all-ok
Volume Manager. -/
theorem claim_C6_amended_witness :
    (handle allOkVM Verb.create "").1.status = 500 ∧
    isWellFormedErrorEnvelope (handle allOkVM Verb.create "").1.body = true :=
  claim_C6_amended allOkVM Verb.create ""
    ⟨fun _ _ _ hh => by simp [allOkVM] at hh, fun _ _ hh => by simp [allOkVM] at hh,
     fun _ _ _ hh => by simp [allOkVM] at hh, fun _ _ _ _ _ _ hh => by simp [allOkVM] at hh,
     fun _ _ _ hh => by simp [allOkVM] at hh, fun _ _ hh => by simp [allOkVM] at hh,
     fun _ hh => by simp [allOkVM] at hh⟩
    (by intro e he
        rw [show decodePluginRequest "" = Except.error DecodeErr.eofErr from rfl] at he
        injection he with h
        rw [← h]
        decide)
    (by decide)

end VolDriver
